/-
Verification of the equipartition magnetic-field calculator (src/app.py).

The numeric model: Python floats are modelled as real numbers.  Python's
arithmetic faults are made explicit in an `Except` monad:
  * `a / b` with `b = 0` raises `ZeroDivisionError`;
  * `b ** e` with `b = 0` and `e < 0` raises `ZeroDivisionError`;
  * `b ** e` with `b < 0` and `e` not an integer leaves the reals
    (Python returns a `complex`), modelled as the error `complexResult`
    since every downstream quantity is then no longer a real number.
All other operations are total on ℝ.  `b ** e` on a nonnegative base is
`Real.rpow`, which agrees with the ideal value of the Python power.
-/
import Mathlib

namespace Equipartition

noncomputable section

/-- cm per kiloparsec (src/app.py line 8). -/
def CGS_KPC : ℝ := 3.08567758128e21

/-- cm per Megaparsec (src/app.py line 9). -/
def CGS_MPC : ℝ := 3.08567758128e24

/-- synchrotron constant (src/app.py line 10). -/
def C1 : ℝ := 6.266e18

/-- synchrotron constant (src/app.py line 11). -/
def C3 : ℝ := 2.368e-3

/-- electron mass in grams (src/app.py line 12). -/
def M_E : ℝ := 9.1093837139e-28

/-- speed of light in cm/s (src/app.py line 13). -/
def C_LIGHT : ℝ := 2.99792458e10

/-- proton/electron energy ratio (src/app.py line 14). -/
def X_FACTOR : ℝ := 0.0

/-- Arithmetic faults of the Python runtime that `compute_fields` can hit. -/
inductive PyErr where
  | zeroDivisionError : PyErr
  | complexResult : PyErr
deriving DecidableEq, Repr

/-- Python float division: raises `ZeroDivisionError` on a zero divisor. -/
def pydiv (a b : ℝ) : Except PyErr ℝ :=
  if b = 0 then .error .zeroDivisionError else .ok (a / b)

/-- Python float power `b ** e`: raises `ZeroDivisionError` for `0 ** negative`,
leaves the reals (complex result) for a negative base and non-integer
exponent, and otherwise agrees with `Real.rpow`. -/
def pypow (b e : ℝ) : Except PyErr ℝ :=
  if b = 0 ∧ e < 0 then .error .zeroDivisionError
  else if b < 0 ∧ (⌊e⌋ : ℝ) ≠ e then .error .complexResult
  else .ok (b ^ e)

/-- The eight-component result tuple of `compute_fields` (src/app.py line 49). -/
structure DerivedResult where
  alpha : ℝ
  B_min : ℝ
  B_eq : ℝ
  D_l_cm : ℝ
  L : ℝ
  u_p : ℝ
  u_B : ℝ
  u_total : ℝ

/-- Shallow embedding of `compute_fields` (src/app.py lines 17–49), one
monadic step per Python arithmetic operation that can fault, in the
source's evaluation order. -/
def compute_fields (alpha g1 g2 v0 s_v0 l b w D_l Sf x : ℝ) :
    Except PyErr DerivedResult := do
  let l_cm := l * Sf * CGS_KPC
  let b_cm := b * Sf * CGS_KPC
  let w_cm := w * Sf * CGS_KPC
  let D_l_cm := D_l * CGS_MPC
  let v0_hz := v0 * 1e6
  let s_v0_cgs := s_v0 * 1e-23
  let p := 2 * alpha + 1
  let V := 4 / 3 * Real.pi * l_cm * b_cm * w_cm * 0.125
  let vpow ← pypow v0_hz alpha
  let L1 := 4 * Real.pi * D_l_cm ^ 2 * s_v0_cgs * vpow
  let t3a ← pypow (g2 - 1) (2 - p)
  let t3b ← pypow (g1 - 1) (2 - p)
  let T3 := t3a - t3b
  let t4a ← pypow (g2 - 1) (2 * (1 - alpha))
  let t4b ← pypow (g1 - 1) (2 * (1 - alpha))
  let T4 := t4a - t4b
  let t5a ← pypow (g2 - 1) (3 - p)
  let t5b ← pypow (g1 - 1) (3 - p)
  let T5 := t5a - t5b
  let T6 ← pydiv (T3 * T4) T5
  let mec2pow ← pypow (M_E * C_LIGHT ^ 2) (2 * alpha - 1)
  let T1 ← pydiv (3 * L1) (2 * C3 * mec2pow)
  let t2a ← pydiv (1 + x) (1 - alpha)
  let t2b ← pydiv (t2a * (3 - p)) (2 - p)
  let t2c ← pypow (Real.sqrt (2 / 3) * C1) (1 - alpha)
  let T2 := t2b * t2c
  let A := T1 * T2 * T6
  let lq ← pydiv L1 (1 - alpha)
  let lpow ← pypow (Real.sqrt (2 / 3) * C1 * (M_E * C_LIGHT ^ 2) ^ 2) (1 - alpha)
  let L := lq * lpow * T4
  let bbase ← pydiv (4 * Real.pi * (1 + alpha) * A) V
  let bexp ← pydiv 1 (3 + alpha)
  let B_min ← pypow bbase bexp
  let beqb ← pydiv 2 (1 + alpha)
  let beqe ← pydiv 1 (3 + alpha)
  let beqf ← pypow beqb beqe
  let B_eq := beqf * B_min
  let u_b := B_min ^ 2 / (8 * Real.pi)
  let upq ← pydiv A V
  let upf ← pypow B_min (-1 + alpha)
  let u_p := upq * upf
  let u_tot := u_p + u_b
  pure ⟨alpha, B_min * 1e6, B_eq * 1e6, D_l_cm, L, u_p, u_b, u_tot⟩

/-- `p = 2*alpha + 1` (src/app.py line 28). -/
def p_of (alpha : ℝ) : ℝ := 2 * alpha + 1

/-- Emission-region volume `V` (src/app.py line 29), with the unit
conversions of lines 19–21 inlined. -/
def V_of (l b w Sf : ℝ) : ℝ :=
  4 / 3 * Real.pi * (l * Sf * CGS_KPC) * (b * Sf * CGS_KPC) * (w * Sf * CGS_KPC) * 0.125

/-- Monochromatic luminosity `L1` (src/app.py line 30), with the
conversions of lines 22, 25–26 inlined. -/
def L1_of (alpha v0 s_v0 D_l : ℝ) : ℝ :=
  4 * Real.pi * (D_l * CGS_MPC) ^ 2 * (s_v0 * 1e-23) * (v0 * 1e6) ^ alpha

/-- `T3` (src/app.py line 32). -/
def T3_of (alpha g1 g2 : ℝ) : ℝ :=
  (g2 - 1) ^ (2 - p_of alpha) - (g1 - 1) ^ (2 - p_of alpha)

/-- `T4` (src/app.py line 33). -/
def T4_of (alpha g1 g2 : ℝ) : ℝ :=
  (g2 - 1) ^ (2 * (1 - alpha)) - (g1 - 1) ^ (2 * (1 - alpha))

/-- `T5` (src/app.py line 34). -/
def T5_of (alpha g1 g2 : ℝ) : ℝ :=
  (g2 - 1) ^ (3 - p_of alpha) - (g1 - 1) ^ (3 - p_of alpha)

/-- `T6 = T3*T4/T5` (src/app.py line 35). -/
def T6_of (alpha g1 g2 : ℝ) : ℝ :=
  T3_of alpha g1 g2 * T4_of alpha g1 g2 / T5_of alpha g1 g2

/-- `T1` (src/app.py line 37). -/
def T1_of (alpha v0 s_v0 D_l : ℝ) : ℝ :=
  3 * L1_of alpha v0 s_v0 D_l / (2 * C3 * (M_E * C_LIGHT ^ 2) ^ (2 * alpha - 1))

/-- `T2` (src/app.py line 38). -/
def T2_of (alpha x : ℝ) : ℝ :=
  (1 + x) / (1 - alpha) * (3 - p_of alpha) / (2 - p_of alpha) *
    (Real.sqrt (2 / 3) * C1) ^ (1 - alpha)

/-- Particle-energy normalisation `A = T1*T2*T6` (src/app.py line 39). -/
def A_of (alpha g1 g2 v0 s_v0 D_l x : ℝ) : ℝ :=
  T1_of alpha v0 s_v0 D_l * T2_of alpha x * T6_of alpha g1 g2

/-- Total synchrotron luminosity `L` (src/app.py line 40). -/
def L_of (alpha g1 g2 v0 s_v0 D_l : ℝ) : ℝ :=
  L1_of alpha v0 s_v0 D_l / (1 - alpha) *
    (Real.sqrt (2 / 3) * C1 * (M_E * C_LIGHT ^ 2) ^ 2) ^ (1 - alpha) *
    T4_of alpha g1 g2

/-- Minimum-energy field `B_min` in Gauss (src/app.py line 42). -/
def Bmin_of (alpha g1 g2 v0 s_v0 l b w D_l Sf x : ℝ) : ℝ :=
  (4 * Real.pi * (1 + alpha) * A_of alpha g1 g2 v0 s_v0 D_l x / V_of l b w Sf) ^
    (1 / (3 + alpha))

/-- Magnetic energy density `u_b` (src/app.py line 45). -/
def ub_of (alpha g1 g2 v0 s_v0 l b w D_l Sf x : ℝ) : ℝ :=
  Bmin_of alpha g1 g2 v0 s_v0 l b w D_l Sf x ^ 2 / (8 * Real.pi)

/-- Particle energy density `u_p` (src/app.py line 46). -/
def up_of (alpha g1 g2 v0 s_v0 l b w D_l Sf x : ℝ) : ℝ :=
  A_of alpha g1 g2 v0 s_v0 D_l x / V_of l b w Sf *
    Bmin_of alpha g1 g2 v0 s_v0 l b w D_l Sf x ^ (-1 + alpha)

/-- One input row of the uploaded table: the ten numeric columns
(`Source` is an opaque label, unused by the computation). -/
structure SourceRow where
  alpha : ℝ
  gamma1 : ℝ
  gamma2 : ℝ
  v0 : ℝ
  s_v0 : ℝ
  l : ℝ
  b : ℝ
  w : ℝ
  D_l : ℝ
  Sf : ℝ

/-- The batch computation `results = df.apply(lambda r: compute_fields(...),
axis=1)` (src/app.py lines 79–86): rows are evaluated in order and the
first uncaught exception aborts the whole batch. -/
def results : List SourceRow → Except PyErr (List DerivedResult)
  | [] => .ok []
  | r :: rest => do
      let out ← compute_fields r.alpha r.gamma1 r.gamma2 r.v0 r.s_v0
        r.l r.b r.w r.D_l r.Sf X_FACTOR
      let outs ← results rest
      pure (out :: outs)

/-- The required column names (src/app.py line 74). -/
def required : List String :=
  ["Source", "alpha", "gamma1", "gamma2", "v0", "s_v0", "l", "b", "w", "D_l", "Sf"]

/-- `missing = [c for c in required if c not in df.columns]`
(src/app.py line 75). -/
def missing (columns : List String) : List String :=
  required.filter (fun c => c ∉ columns)

/-- Outcome of one upload, after the file has been parsed
(src/app.py lines 74–100). -/
inductive AppOutcome where
  | schemaError (missingCols : List String) : AppOutcome
  | uncaught (e : PyErr) : AppOutcome
  | table (rows : List DerivedResult) : AppOutcome

/-- The app's handling of a parsed table (src/app.py lines 74–100): reject on
missing columns, otherwise run the batch; an exception from the batch is not
caught anywhere and surfaces as a crash of the script run. -/
def processUpload (columns : List String) (rows : List SourceRow) : AppOutcome :=
  if missing columns ≠ [] then .schemaError (missing columns)
  else match results rows with
    | .error e => .uncaught e
    | .ok rs => .table rs

/-- Column header of the exported table `df_out` (src/app.py lines 87–97),
in construction order; `to_csv` (line 102) writes exactly these names. -/
def df_out_header : List String :=
  ["Source", "Alpha", "B_min (µG)", "B_eq (µG)", "D_L (cm)", "L (erg/s)",
   "u_p (erg/cm³)", "u_B (erg/cm³)", "u_total (erg/cm³)"]

/-- Modelled from the spec: the export header the specification prescribes
(spec §6, "Persisted/exported form"), for comparison with `df_out_header`. -/
def spec_export_header : List String :=
  ["Source", "B_min (µG)", "B_eq (µG)", "D_L (cm)", "L (erg/s)",
   "u_p (erg/cm³)", "u_B (erg/cm³)", "u_total (erg/cm³)"]

end

theorem pypow_pos {b : ℝ} (hb : 0 < b) : ∀ e : ℝ, pypow b e = .ok (b ^ e) := fun e => by
  unfold pypow
  rw [if_neg (fun h => (ne_of_gt hb) h.1), if_neg (fun h => (not_lt.mpr hb.le) h.1)]

theorem pydiv_ne {b : ℝ} (hb : b ≠ 0) : ∀ a : ℝ, pydiv a b = .ok (a / b) := fun a => by
  unfold pydiv
  rw [if_neg hb]

theorem pydiv_denom_zero (a : ℝ) : pydiv a 0 = .error .zeroDivisionError := by
  unfold pydiv
  rw [if_pos rfl]

theorem ok_bind {α β : Type} (a : α) (f : α → Except PyErr β) :
    (Except.ok a : Except PyErr α) >>= f = f a := rfl

theorem error_bind {α β : Type} (e : PyErr) (f : α → Except PyErr β) :
    (Except.error e : Except PyErr α) >>= f = .error e := rfl

theorem pure_ok {α : Type} (a : α) : (pure a : Except PyErr α) = .ok a := rfl

theorem bind_ok_inv {α β : Type} {x : Except PyErr α} {f : α → Except PyErr β}
    {out : β} (h : x >>= f = .ok out) : ∃ a, x = .ok a ∧ f a = .ok out := by
  cases x with
  | error e =>
      rw [error_bind] at h
      exact Except.noConfusion h
  | ok a =>
      rw [ok_bind] at h
      exact ⟨a, rfl, h⟩

theorem pydiv_ok_inv {a b v : ℝ} (h : pydiv a b = .ok v) : b ≠ 0 ∧ v = a / b := by
  unfold pydiv at h
  by_cases hb : b = 0
  · rw [if_pos hb] at h
    exact Except.noConfusion h
  · rw [if_neg hb] at h
    injection h with h
    exact ⟨hb, h.symm⟩

theorem pypow_ok_inv {b e v : ℝ} (h : pypow b e = .ok v) : v = b ^ e := by
  unfold pypow at h
  by_cases h1 : b = 0 ∧ e < 0
  · rw [if_pos h1] at h
    exact Except.noConfusion h
  · rw [if_neg h1] at h
    by_cases h2 : b < 0 ∧ (⌊e⌋ : ℝ) ≠ e
    · rw [if_pos h2] at h
      exact Except.noConfusion h
    · rw [if_neg h2] at h
      injection h with h
      exact h.symm

/-- Every result `compute_fields` returns, on any input whatsoever, has the
structural shape fixed by lines 42–49 of the source: the returned `B_eq` is
`(2/(1+alpha))^(1/(3+alpha))` times the returned `B_min` (both in µG), the
returned distance is `D_l·CGS_MPC`, and `u_total` is the literal sum of the
returned `u_p` and `u_B`. -/
theorem compute_fields_ok_shape {alpha g1 g2 v0 s_v0 l b w D_l Sf x : ℝ}
    {out : DerivedResult}
    (h : compute_fields alpha g1 g2 v0 s_v0 l b w D_l Sf x = .ok out) :
    ∃ Bm Lv upv ubv, out =
      ⟨alpha, Bm * 1e6,
       (2 / (1 + alpha)) ^ (1 / (3 + alpha)) * Bm * 1e6,
       D_l * CGS_MPC, Lv, upv, ubv, upv + ubv⟩ := by
  unfold compute_fields at h
  obtain ⟨vpow, _, h⟩ := bind_ok_inv h
  obtain ⟨t3a, _, h⟩ := bind_ok_inv h
  obtain ⟨t3b, _, h⟩ := bind_ok_inv h
  obtain ⟨t4a, _, h⟩ := bind_ok_inv h
  obtain ⟨t4b, _, h⟩ := bind_ok_inv h
  obtain ⟨t5a, _, h⟩ := bind_ok_inv h
  obtain ⟨t5b, _, h⟩ := bind_ok_inv h
  obtain ⟨T6, _, h⟩ := bind_ok_inv h
  obtain ⟨mec2pow, _, h⟩ := bind_ok_inv h
  obtain ⟨T1, _, h⟩ := bind_ok_inv h
  obtain ⟨t2a, _, h⟩ := bind_ok_inv h
  obtain ⟨t2b, _, h⟩ := bind_ok_inv h
  obtain ⟨t2c, _, h⟩ := bind_ok_inv h
  obtain ⟨lq, _, h⟩ := bind_ok_inv h
  obtain ⟨lpow, _, h⟩ := bind_ok_inv h
  obtain ⟨bbase, _, h⟩ := bind_ok_inv h
  obtain ⟨bexp, hbexp, h⟩ := bind_ok_inv h
  obtain ⟨B_min, _, h⟩ := bind_ok_inv h
  obtain ⟨beqb, hbeqb, h⟩ := bind_ok_inv h
  obtain ⟨beqe, hbeqe, h⟩ := bind_ok_inv h
  obtain ⟨beqf, hbeqf, h⟩ := bind_ok_inv h
  obtain ⟨upq, _, h⟩ := bind_ok_inv h
  obtain ⟨upf, _, h⟩ := bind_ok_inv h
  rw [pure_ok] at h
  injection h with h
  obtain ⟨_, rfl⟩ := pydiv_ok_inv hbeqb
  obtain ⟨_, rfl⟩ := pydiv_ok_inv hbeqe
  obtain rfl := pypow_ok_inv hbeqf
  exact ⟨B_min, _, _, _, h.symm⟩

theorem L1_of_pos {alpha v0 s_v0 D_l : ℝ} (hv0 : 0 < v0) (hs : 0 < s_v0)
    (hD : 0 < D_l) : 0 < L1_of alpha v0 s_v0 D_l := by
  unfold L1_of
  exact mul_pos
    (mul_pos
      (mul_pos (mul_pos (by norm_num) Real.pi_pos)
        (pow_pos (mul_pos hD (by norm_num [CGS_MPC])) 2))
      (mul_pos hs (by norm_num)))
    (Real.rpow_pos_of_pos (mul_pos hv0 (by norm_num)) alpha)

theorem T5_of_pos {alpha g1 g2 : ℝ} (hg1 : 1 < g1) (hg12 : g1 < g2)
    (ha2 : alpha < 1) : 0 < T5_of alpha g1 g2 := by
  unfold T5_of p_of
  exact sub_pos.mpr (Real.rpow_lt_rpow (by linarith) (by linarith) (by linarith))

theorem T4_of_eq_T5_of (alpha g1 g2 : ℝ) : T4_of alpha g1 g2 = T5_of alpha g1 g2 := by
  unfold T4_of T5_of p_of
  rw [show (3:ℝ) - (2 * alpha + 1) = 2 * (1 - alpha) by ring]

theorem V_of_pos {l b w Sf : ℝ} (hl : 0 < l) (hb : 0 < b) (hw : 0 < w)
    (hSf : 0 < Sf) : 0 < V_of l b w Sf := by
  unfold V_of
  have hk : (0:ℝ) < CGS_KPC := by norm_num [CGS_KPC]
  exact mul_pos
    (mul_pos
      (mul_pos
        (mul_pos (mul_pos (by norm_num) Real.pi_pos) (mul_pos (mul_pos hl hSf) hk))
        (mul_pos (mul_pos hb hSf) hk))
      (mul_pos (mul_pos hw hSf) hk))
    (by norm_num)

theorem A_of_pos {alpha g1 g2 v0 s_v0 D_l x : ℝ} (hg1 : 1 < g1) (hg12 : g1 < g2)
    (hv0 : 0 < v0) (hs : 0 < s_v0) (hD : 0 < D_l) (ha2 : alpha < 1)
    (ha3 : alpha ≠ 1 / 2) (hx : 0 ≤ x) :
    0 < A_of alpha g1 g2 v0 s_v0 D_l x := by
  have hb1 : (0:ℝ) < g1 - 1 := by linarith
  have hT5 := T5_of_pos hg1 hg12 ha2
  have hT1 : 0 < T1_of alpha v0 s_v0 D_l := by
    unfold T1_of
    exact div_pos (mul_pos (by norm_num) (L1_of_pos hv0 hs hD))
      (mul_pos (by norm_num [C3])
        (Real.rpow_pos_of_pos (by norm_num [M_E, C_LIGHT]) _))
  have hT6 : T6_of alpha g1 g2 = T3_of alpha g1 g2 := by
    unfold T6_of
    rw [T4_of_eq_T5_of, mul_div_assoc, div_self (ne_of_gt hT5), mul_one]
  have hK2 : (0:ℝ) < (Real.sqrt (2 / 3) * C1) ^ (1 - alpha) :=
    Real.rpow_pos_of_pos
      (mul_pos (Real.sqrt_pos.mpr (by norm_num)) (by norm_num [C1])) _
  have hq : (0:ℝ) < (1 + x) / (1 - alpha) * (3 - (2 * alpha + 1)) :=
    mul_pos (div_pos (by linarith) (by linarith)) (by linarith)
  have hd : (2:ℝ) - (2 * alpha + 1) ≠ 0 := by
    intro h
    apply ha3
    linarith
  unfold A_of
  rw [hT6]
  unfold T2_of T3_of p_of
  rcases lt_or_gt_of_ne hd.symm with hdpos | hdneg
  · exact mul_pos
      (mul_pos hT1 (mul_pos (div_pos hq hdpos) hK2))
      (sub_pos.mpr (Real.rpow_lt_rpow hb1.le (by linarith) hdpos))
  · rw [mul_assoc]
    exact mul_pos hT1
      (mul_pos_of_neg_of_neg
        (mul_neg_of_neg_of_pos (div_neg_of_pos_of_neg hq hdneg) hK2)
        (sub_neg.mpr (Real.rpow_lt_rpow_of_neg hb1 (by linarith) hdneg)))

theorem Bmin_of_pos {alpha g1 g2 v0 s_v0 l b w D_l Sf x : ℝ} (hg1 : 1 < g1)
    (hg12 : g1 < g2) (hv0 : 0 < v0) (hs : 0 < s_v0) (hl : 0 < l) (hb : 0 < b)
    (hw : 0 < w) (hD : 0 < D_l) (hSf : 0 < Sf) (ha1 : -1 < alpha)
    (ha2 : alpha < 1) (ha3 : alpha ≠ 1 / 2) (hx : 0 ≤ x) :
    0 < Bmin_of alpha g1 g2 v0 s_v0 l b w D_l Sf x := by
  unfold Bmin_of
  exact Real.rpow_pos_of_pos
    (div_pos
      (mul_pos (mul_pos (mul_pos (by norm_num) Real.pi_pos) (by linarith))
        (A_of_pos hg1 hg12 hv0 hs hD ha2 ha3 hx))
      (V_of_pos hl hb hw hSf)) _

theorem compute_fields_eval {alpha g1 g2 v0 s_v0 l b w D_l Sf x : ℝ}
    (hg1 : 1 < g1) (hg12 : g1 < g2) (hv0 : 0 < v0) (hs : 0 < s_v0)
    (hl : 0 < l) (hb : 0 < b) (hw : 0 < w) (hD : 0 < D_l) (hSf : 0 < Sf)
    (ha1 : -1 < alpha) (ha2 : alpha < 1) (ha3 : alpha ≠ 1 / 2) (hx : 0 ≤ x) :
    compute_fields alpha g1 g2 v0 s_v0 l b w D_l Sf x =
      .ok ⟨alpha,
           Bmin_of alpha g1 g2 v0 s_v0 l b w D_l Sf x * 1e6,
           (2 / (1 + alpha)) ^ (1 / (3 + alpha)) *
             Bmin_of alpha g1 g2 v0 s_v0 l b w D_l Sf x * 1e6,
           D_l * CGS_MPC,
           L_of alpha g1 g2 v0 s_v0 D_l,
           up_of alpha g1 g2 v0 s_v0 l b w D_l Sf x,
           ub_of alpha g1 g2 v0 s_v0 l b w D_l Sf x,
           up_of alpha g1 g2 v0 s_v0 l b w D_l Sf x +
             ub_of alpha g1 g2 v0 s_v0 l b w D_l Sf x⟩ := by
  have hb1 : (0:ℝ) < g1 - 1 := by linarith
  have hb2 : (0:ℝ) < g2 - 1 := by linarith
  have hv : (0:ℝ) < v0 * 1e6 := mul_pos hv0 (by norm_num)
  have hmec : (0:ℝ) < M_E * C_LIGHT ^ 2 := by norm_num [M_E, C_LIGHT]
  have hK2 : (0:ℝ) < Real.sqrt (2 / 3) * C1 :=
    mul_pos (Real.sqrt_pos.mpr (by norm_num)) (by norm_num [C1])
  have hK3 : (0:ℝ) < Real.sqrt (2 / 3) * C1 * (M_E * C_LIGHT ^ 2) ^ 2 :=
    mul_pos hK2 (pow_pos hmec 2)
  have h1a : (1:ℝ) - alpha ≠ 0 := ne_of_gt (by linarith)
  have h2p : (2:ℝ) - (2 * alpha + 1) ≠ 0 := by
    intro h
    apply ha3
    linarith
  have h3a : (3:ℝ) + alpha ≠ 0 := ne_of_gt (by linarith)
  have h1pa : (1:ℝ) + alpha ≠ 0 := ne_of_gt (by linarith)
  have hdenom : 2 * C3 * (M_E * C_LIGHT ^ 2) ^ (2 * alpha - 1) ≠ 0 :=
    ne_of_gt (mul_pos (by norm_num [C3]) (Real.rpow_pos_of_pos hmec _))
  have hT5 := T5_of_pos hg1 hg12 ha2
  unfold T5_of p_of at hT5
  have hA := A_of_pos hg1 hg12 hv0 hs hD ha2 ha3 hx
  have hV := V_of_pos hl hb hw hSf
  have hbbase : (0:ℝ) < 4 * Real.pi * (1 + alpha) *
      A_of alpha g1 g2 v0 s_v0 D_l x / V_of l b w Sf :=
    div_pos
      (mul_pos (mul_pos (mul_pos (by norm_num) Real.pi_pos) (by linarith)) hA) hV
  have hBmin : (0:ℝ) < (4 * Real.pi * (1 + alpha) *
      A_of alpha g1 g2 v0 s_v0 D_l x / V_of l b w Sf) ^ (1 / (3 + alpha)) :=
    Real.rpow_pos_of_pos hbbase _
  have hbeq : (0:ℝ) < 2 / (1 + alpha) := div_pos (by norm_num) (by linarith)
  unfold A_of T1_of T2_of T6_of T3_of T4_of T5_of L1_of V_of p_of at hbbase hBmin
  unfold V_of at hV
  simp only [compute_fields, pypow_pos hv, pypow_pos hb1, pypow_pos hb2,
    pypow_pos hmec, pypow_pos hK2, pypow_pos hK3, pypow_pos hbbase,
    pypow_pos hBmin, pypow_pos hbeq,
    pydiv_ne h1a, pydiv_ne h2p, pydiv_ne h3a, pydiv_ne h1pa,
    pydiv_ne hdenom, pydiv_ne (ne_of_gt hT5), pydiv_ne (ne_of_gt hV),
    ok_bind, pure_ok]
  unfold Bmin_of up_of ub_of L_of A_of T1_of T2_of T6_of T3_of T4_of T5_of L1_of V_of p_of
  rfl

/-- C2: whenever `compute_fields` returns a result — on any input row
whatsoever, with no domain restriction, covering every row of the claim's
domain `alpha ∉ {1, -3}` that yields outputs — the returned fields satisfy
`B_eq = (2/(1+alpha))^(1/(3+alpha)) · B_min` exactly, and therefore
`B_eq / B_min = (2/(1+alpha))^(1/(3+alpha))` whenever `B_min ≠ 0`; exact in
real arithmetic, hence well within the claimed 1e-9 relative tolerance.
(Rows on which the code raises instead of returning — e.g. `alpha = 1/2`,
see C10 — produce no outputs to constrain.) -/
theorem equipartition_ratio {alpha g1 g2 v0 s_v0 l b w D_l Sf x : ℝ}
    {out : DerivedResult}
    (hok : compute_fields alpha g1 g2 v0 s_v0 l b w D_l Sf x = .ok out) :
    out.B_eq = (2 / (1 + alpha)) ^ (1 / (3 + alpha)) * out.B_min ∧
    (out.B_min ≠ 0 →
      out.B_eq / out.B_min = (2 / (1 + alpha)) ^ (1 / (3 + alpha))) := by
  obtain ⟨Bm, Lv, upv, ubv, rfl⟩ := compute_fields_ok_shape hok
  refine ⟨?_, fun hB => ?_⟩
  · show (2 / (1 + alpha)) ^ (1 / (3 + alpha)) * Bm * 1e6 =
      (2 / (1 + alpha)) ^ (1 / (3 + alpha)) * (Bm * 1e6)
    rw [mul_assoc]
  · show (2 / (1 + alpha)) ^ (1 / (3 + alpha)) * Bm * 1e6 / (Bm * 1e6) =
      (2 / (1 + alpha)) ^ (1 / (3 + alpha))
    rw [mul_assoc]
    exact mul_div_cancel_right₀ _ hB

/-- Witness for C2 at the concrete valid row
`alpha=3/4, gamma1=2, gamma2=5, v0=1, s_v0=1, l=b=w=1, D_l=1, Sf=1`,
where `compute_fields` returns and `B_min` is nonzero. -/
theorem equipartition_ratio_witness :
    ∃ out, compute_fields (3/4) 2 5 1 1 1 1 1 1 1 X_FACTOR = .ok out ∧
      out.B_eq = (2 / (1 + 3/4) : ℝ) ^ ((1 : ℝ) / (3 + 3/4)) * out.B_min ∧
      (out.B_min ≠ 0 →
        out.B_eq / out.B_min = (2 / (1 + 3/4) : ℝ) ^ ((1 : ℝ) / (3 + 3/4))) := by
  have h := @compute_fields_eval (3/4) 2 5 1 1 1 1 1 1 1 X_FACTOR
    (by norm_num) (by norm_num) (by norm_num) (by norm_num) (by norm_num)
    (by norm_num) (by norm_num) (by norm_num) (by norm_num) (by norm_num)
    (by norm_num) (by norm_num) (by norm_num [X_FACTOR])
  exact ⟨_, h, equipartition_ratio h⟩

/-- C5: whenever `compute_fields` returns a result — on any input row
whatsoever, with no domain restriction, covering every row of the claim's
valid domain that yields outputs — the returned fields satisfy
`u_total = u_p + u_B` exactly: the code builds `u_tot` as the literal sum
`u_p + u_b` (src/app.py line 47). -/
theorem u_total_composition {alpha g1 g2 v0 s_v0 l b w D_l Sf x : ℝ}
    {out : DerivedResult}
    (hok : compute_fields alpha g1 g2 v0 s_v0 l b w D_l Sf x = .ok out) :
    out.u_total = out.u_p + out.u_B := by
  obtain ⟨Bm, Lv, upv, ubv, rfl⟩ := compute_fields_ok_shape hok
  rfl

/-- Witness for C5 at the concrete valid row
`alpha=3/4, gamma1=2, gamma2=5, v0=1, s_v0=1, l=b=w=1, D_l=1, Sf=1`. -/
theorem u_total_composition_witness :
    ∃ out, compute_fields (3/4) 2 5 1 1 1 1 1 1 1 X_FACTOR = .ok out ∧
      out.u_total = out.u_p + out.u_B := by
  have h := @compute_fields_eval (3/4) 2 5 1 1 1 1 1 1 1 X_FACTOR
    (by norm_num) (by norm_num) (by norm_num) (by norm_num) (by norm_num)
    (by norm_num) (by norm_num) (by norm_num) (by norm_num) (by norm_num)
    (by norm_num) (by norm_num) (by norm_num [X_FACTOR])
  exact ⟨_, h, u_total_composition h⟩

/-- C6: `compute_fields` is deterministic — two invocations on identical
arguments yield identical results.  In the embedding this holds by
construction: the source reads only its arguments and the module-level
constants, so the model is a pure function. -/
theorem compute_fields_deterministic (alpha g1 g2 v0 s_v0 l b w D_l Sf x : ℝ) :
    compute_fields alpha g1 g2 v0 s_v0 l b w D_l Sf x =
      compute_fields alpha g1 g2 v0 s_v0 l b w D_l Sf x := rfl

/-- C4: scaling `l, b, w` by `k > 0` while dividing `Sf` by `k` leaves the
volume `V`, and the entire result of `compute_fields`, unchanged — for
arbitrary inputs, since `l, b, w, Sf` enter only through the products
`l*Sf`, `b*Sf`, `w*Sf`. -/
theorem unit_scale_invariance {k : ℝ} (hk : 0 < k)
    (alpha g1 g2 v0 s_v0 l b w D_l Sf x : ℝ) :
    V_of (k * l) (k * b) (k * w) (Sf / k) = V_of l b w Sf ∧
    compute_fields alpha g1 g2 v0 s_v0 (k * l) (k * b) (k * w) D_l (Sf / k) x =
      compute_fields alpha g1 g2 v0 s_v0 l b w D_l Sf x := by
  have hk' : k ≠ 0 := ne_of_gt hk
  have hz : ∀ z : ℝ, k * z * (Sf / k) = z * Sf := fun z => by
    field_simp
    ring
  constructor
  · unfold V_of
    rw [hz l, hz b, hz w]
  · simp only [compute_fields, hz]

/-- Witness for C4 at `k = 2`, `l = b = w = Sf = 1` and a concrete row. -/
theorem unit_scale_invariance_witness :
    V_of (2 * 1) (2 * 1) (2 * 1) (1 / 2) = V_of 1 1 1 1 ∧
    compute_fields (3/4) 2 5 1 1 (2 * 1) (2 * 1) (2 * 1) 1 (1 / 2) 0 =
      compute_fields (3/4) 2 5 1 1 1 1 1 1 1 0 :=
  unit_scale_invariance (by norm_num) (3/4) 2 5 1 1 1 1 1 1 1 0

/-- C1: at `alpha = 1` (all other fields valid) `compute_fields` does not
signal a `DomainError` — no such guard exists anywhere in the code — but
hits a raw `ZeroDivisionError`: `T5 = (g2-1)^0 - (g1-1)^0 = 0` and
`T6 = T3*T4/T5` divides by it. -/
theorem alpha_one_zero_division :
    compute_fields 1 2 5 1 1 1 1 1 1 1 X_FACTOR = .error .zeroDivisionError := by
  have hv : (0:ℝ) < 1 * 1e6 := by norm_num
  have hb2 : (0:ℝ) < 5 - 1 := by norm_num
  have hb1 : (0:ℝ) < 2 - 1 := by norm_num
  have hT5 : ((5:ℝ) - 1) ^ ((3:ℝ) - (2 * 1 + 1)) -
      ((2:ℝ) - 1) ^ ((3:ℝ) - (2 * 1 + 1)) = 0 := by
    rw [show (3:ℝ) - (2 * 1 + 1) = 0 by norm_num, Real.rpow_zero, Real.rpow_zero]
    norm_num
  simp only [compute_fields, pypow_pos hv, pypow_pos hb2, pypow_pos hb1, ok_bind]
  rw [hT5, pydiv_denom_zero]
  rfl

/-- C10: at `alpha = 1/2` (a row the spec's listed error conditions admit)
`compute_fields` hits a raw `ZeroDivisionError`: `p = 2·alpha + 1 = 2`
makes the divisor `2 - p` of the `T2` prefactor zero.  No conversion to a
`DomainError` happens — the code has no error handling at all. -/
theorem alpha_half_zero_division :
    compute_fields (1/2) 2 5 1 1 1 1 1 1 1 X_FACTOR = .error .zeroDivisionError := by
  have hv : (0:ℝ) < 1 * 1e6 := by norm_num
  have hb2 : (0:ℝ) < 5 - 1 := by norm_num
  have hb1 : (0:ℝ) < 2 - 1 := by norm_num
  have hmec : (0:ℝ) < M_E * C_LIGHT ^ 2 := by norm_num [M_E, C_LIGHT]
  have hT5 : ((5:ℝ) - 1) ^ ((3:ℝ) - (2 * (1/2) + 1)) -
      ((2:ℝ) - 1) ^ ((3:ℝ) - (2 * (1/2) + 1)) ≠ 0 := by
    rw [show (3:ℝ) - (2 * (1/2) + 1) = 1 by norm_num, Real.rpow_one, Real.rpow_one]
    norm_num
  have hdenom : 2 * C3 * (M_E * C_LIGHT ^ 2) ^ (2 * (1/2 : ℝ) - 1) ≠ 0 :=
    ne_of_gt (mul_pos (by norm_num [C3]) (Real.rpow_pos_of_pos hmec _))
  have h1a : (1:ℝ) - 1/2 ≠ 0 := by norm_num
  simp only [compute_fields, pypow_pos hv, pypow_pos hb2, pypow_pos hb1,
    pypow_pos hmec, pydiv_ne hT5, pydiv_ne hdenom, pydiv_ne h1a, ok_bind]
  rw [show (2:ℝ) - (2 * (1/2) + 1) = 0 by norm_num, pydiv_denom_zero]
  rfl

/-- A well-formed source row (`alpha=3/4, gamma1=2, gamma2=5`, the rest 1). -/
noncomputable def goodRow : SourceRow := ⟨3/4, 2, 5, 1, 1, 1, 1, 1, 1, 1⟩

/-- A malformed source row: `gamma1 = gamma2 = 2`, everything else valid. -/
noncomputable def badRow : SourceRow := ⟨3/4, 2, 2, 1, 1, 1, 1, 1, 1, 1⟩

theorem compute_fields_badRow :
    compute_fields (3/4) 2 2 1 1 1 1 1 1 1 X_FACTOR = .error .zeroDivisionError := by
  have hv : (0:ℝ) < 1 * 1e6 := by norm_num
  have hb1 : (0:ℝ) < 2 - 1 := by norm_num
  simp only [compute_fields, pypow_pos hv, pypow_pos hb1, ok_bind]
  rw [show ((2:ℝ) - 1) ^ ((3:ℝ) - (2 * (3/4) + 1)) -
      ((2:ℝ) - 1) ^ ((3:ℝ) - (2 * (3/4) + 1)) = 0 from sub_self _,
    pydiv_denom_zero]
  rfl

/-- C7: a batch of five rows, one of which is malformed (`gamma1 = gamma2`),
does not yield four results and one recorded error — the malformed row's
uncaught `ZeroDivisionError` aborts the entire batch (`df.apply` propagates
the exception), so no row's result is produced. -/
theorem batch_aborts_on_bad_row :
    results [goodRow, badRow, goodRow, goodRow, goodRow] =
      .error .zeroDivisionError := by
  have hg := @compute_fields_eval (3/4) 2 5 1 1 1 1 1 1 1 X_FACTOR
    (by norm_num) (by norm_num) (by norm_num) (by norm_num) (by norm_num)
    (by norm_num) (by norm_num) (by norm_num) (by norm_num) (by norm_num)
    (by norm_num) (by norm_num) (by norm_num [X_FACTOR])
  simp only [results, goodRow, badRow]
  rw [hg, compute_fields_badRow]
  simp only [ok_bind, error_bind]

/-- C8: if any required column is absent, the app rejects the upload with
the explicit list of the missing required column names — independently of
the rows, so `compute_fields` is never invoked — and that list contains
exactly the required names absent from the table. -/
theorem missing_columns_rejected (columns : List String) (rows : List SourceRow)
    (c0 : String) (hc0 : c0 ∈ required) (hnc : c0 ∉ columns) :
    processUpload columns rows = .schemaError (missing columns) ∧
    missing columns ≠ [] ∧
    ∀ c, c ∈ missing columns ↔ c ∈ required ∧ c ∉ columns := by
  have hmem : c0 ∈ missing columns := by
    unfold missing
    exact List.mem_filter.mpr ⟨hc0, decide_eq_true hnc⟩
  have hne : missing columns ≠ [] := fun h => by
    rw [h] at hmem
    exact (List.not_mem_nil c0) hmem
  refine ⟨?_, hne, ?_⟩
  · unfold processUpload
    rw [if_pos hne]
  · intro c
    unfold missing
    simp [List.mem_filter]

/-- Witness for C8: a table exposing only `Source` is rejected, for any rows. -/
theorem missing_columns_rejected_witness :
    processUpload ["Source"] [] = .schemaError (missing ["Source"]) ∧
    missing ["Source"] ≠ [] ∧
    ∀ c, c ∈ missing ["Source"] ↔ c ∈ required ∧ c ∉ ["Source"] :=
  missing_columns_rejected ["Source"] [] "alpha" (by decide) (by decide)

/-- C9 counterexample: the exported header is not the 8-column header the
spec prescribes — the code inserts an extra `Alpha` column after `Source`. -/
theorem export_header_ne_spec : df_out_header ≠ spec_export_header := by
  decide

/-- C9 amended: the exported header is exactly the spec's header with an
extra column `Alpha` inserted in second position. -/
theorem export_header_with_alpha :
    df_out_header = "Source" :: "Alpha" :: spec_export_header.tail := by
  decide

end Equipartition
